import Mathlib

/-!
Shallow embedding of hassio/addons/data.py (class AddonsData).

Python dicts keyed by strings are modelled as association lists
(first match wins on lookup, in-place replacement on key update,
append for a fresh key), which matches dict semantics when keys are
unique, as they always are for a dict.  JSON values appearing as
option values are modelled by the small inductive JVal.  A persist
(self.save()) is modelled by incrementing a counter, and a logged
warning (_LOGGER.warning) by incrementing a second counter.
Exceptions escaping a method (KeyError, AttributeError) are modelled
by returning the state reached so far paired with the success flag
false, or by Option where only the result matters.
-/

namespace Hassio

/-- A JSON-style scalar value, as found in addon option dictionaries. -/
inductive JVal where
  | str : String → JVal
  | num : Int → JVal
  | bool : Bool → JVal
  deriving Repr, DecidableEq

/-- Association-list model of a Python dict keyed by strings. -/
abbrev Smap (α : Type) : Type := List (String × α)

/-- Dict lookup: first entry with the key. -/
def smapLookup {α : Type} : Smap α → String → Option α
  | [], _ => none
  | (k', v) :: rest, k => if k' = k then some v else smapLookup rest k

/-- Dict assignment d[k] = v: replace the first entry with the key in
place, or append a fresh entry. -/
def smapInsert {α : Type} : Smap α → String → α → Smap α
  | [], k, v => [(k, v)]
  | (k', v') :: rest, k, v =>
      if k' = k then (k, v) :: rest else (k', v') :: smapInsert rest k v

/-- Dict d.pop(k, None): remove the entries with the key. -/
def smapErase {α : Type} : Smap α → String → Smap α
  | [], _ => []
  | (k', v') :: rest, k =>
      if k' = k then smapErase rest k else (k', v') :: smapErase rest k

/-- Python dict equality is key-by-key, insertion order does not
matter; compare the lookups at every key occurring on either side. -/
def smapExtEq {α : Type} [BEq α] (m1 m2 : Smap α) : Bool :=
  (m1.map Prod.fst ++ m2.map Prod.fst).all
    (fun k => smapLookup m1 k == smapLookup m2 k)

/-- Python double-splat merge of two dicts: start from the base and
assign every entry of the override in order. -/
def smapMergeDicts {α : Type} (base override : Smap α) : Smap α :=
  override.foldl (fun acc kv => smapInsert acc kv.1 kv.2) base

/-- The override value when present, else the base value. -/
def dictFallback {α : Type} (over base : Option α) : Option α :=
  match over with
  | some v => some v
  | none => base

/-- An addon definition dict, after SCHEMA_ADDON_CONFIG validation and
after the scanner stamped ATTR_REPOSITORY and ATTR_LOCATON into it.
Field names follow the ATTR_ constants, including the descripton typo. -/
structure AddonConfig where
  slug : String
  name : String
  descripton : String
  version : String
  startup : String
  boot : String
  arch : List String
  url : Option String
  image : Option String
  ports : Option (Smap JVal)
  map : List String
  devices : Option (List String)
  environment : Option (Smap String)
  schema : Smap String
  options : Smap JVal
  repository : String
  locaton : String
  deriving Repr, DecidableEq

/-- Python equality of two addon definition dicts: scalar and list
fields compare by value, nested dicts compare key-by-key. -/
def AddonConfig.pyEq (a b : AddonConfig) : Bool :=
  a.slug == b.slug && a.name == b.name && a.descripton == b.descripton &&
  a.version == b.version && a.startup == b.startup && a.boot == b.boot &&
  a.arch == b.arch && a.url == b.url && a.image == b.image &&
  (match a.ports, b.ports with
   | none, none => true
   | some p, some q => smapExtEq p q
   | _, _ => false) &&
  a.map == b.map && a.devices == b.devices &&
  (match a.environment, b.environment with
   | none, none => true
   | some p, some q => smapExtEq p q
   | _, _ => false) &&
  smapExtEq a.schema b.schema && smapExtEq a.options b.options &&
  a.repository == b.repository && a.locaton == b.locaton

/-- The user half of an installed addon: the dict stored under USER.
Its keys are ATTR_OPTIONS, ATTR_VERSION and optionally ATTR_BOOT. -/
structure UserRecord where
  options : Smap JVal
  version : String
  boot : Option String
  deriving Repr, DecidableEq

/-- A validated repository.json content (SCHEMA_REPOSITORY_CONFIG):
name, url, maintainer. -/
structure RepoConfig where
  name : String
  url : Option String
  maintainer : Option String
  deriving Repr, DecidableEq

/-- An entry of _repositories_data: the ATTR_SLUG taken from the
directory hash plus the validated repository.json fields. -/
structure RepoInfo where
  slug : String
  name : String
  url : Option String
  maintainer : Option String
  deriving Repr, DecidableEq

/-- The state of an AddonsData instance.  saves counts calls to
self.save() (persists); warnings counts _LOGGER.warning calls. -/
structure AddonsData where
  system_data : Smap AddonConfig
  user_data : Smap UserRecord
  addons_cache : Smap AddonConfig
  repositories_data : Smap RepoInfo
  arch : String
  saves : Nat
  warnings : Nat
  deriving Repr, DecidableEq

/-- set_addon_install: copies the catalog entry into _system_data and
creates the user dict with empty options and the given version, then
saves.  When the slug is missing from _addons_cache the subscript on
the right-hand side of the first assignment raises KeyError before any
mutation, modelled by returning the unchanged state with flag false. -/
def set_addon_install (st : AddonsData) (addon version : String) :
    AddonsData × Bool :=
  match smapLookup st.addons_cache addon with
  | none => (st, false)
  | some c =>
      let st1 := { st with system_data := smapInsert st.system_data addon c }
      let st2 := { st1 with
        user_data := smapInsert st1.user_data addon
          { options := [], version := version, boot := none } }
      ({ st2 with saves := st2.saves + 1 }, true)

/-- set_addon_uninstall: pops the slug from both halves (no error when
absent) and saves. -/
def set_addon_uninstall (st : AddonsData) (addon : String) : AddonsData :=
  { st with
    system_data := smapErase st.system_data addon,
    user_data := smapErase st.user_data addon,
    saves := st.saves + 1 }

/-- set_addon_update: overwrites _system_data[addon] with the catalog
entry and sets ATTR_VERSION inside _user_data[addon], then saves.  A
slug missing from _addons_cache raises KeyError before any mutation; a
slug missing from _user_data raises KeyError after _system_data was
already overwritten, which the returned pair records faithfully. -/
def set_addon_update (st : AddonsData) (addon version : String) :
    AddonsData × Bool :=
  match smapLookup st.addons_cache addon with
  | none => (st, false)
  | some c =>
      let st1 := { st with system_data := smapInsert st.system_data addon c }
      match smapLookup st1.user_data addon with
      | none => (st1, false)
      | some u =>
          ({ st1 with
              user_data := smapInsert st1.user_data addon
                { u with version := version },
              saves := st1.saves + 1 }, true)

/-- set_options: replaces the options dict inside _user_data[addon]
and saves; KeyError when the slug has no user half. -/
def set_options (st : AddonsData) (addon : String) (options : Smap JVal) :
    AddonsData × Bool :=
  match smapLookup st.user_data addon with
  | none => (st, false)
  | some u =>
      ({ st with
          user_data := smapInsert st.user_data addon
            { u with options := options },
          saves := st.saves + 1 }, true)

/-- set_boot: stores the boot override inside _user_data[addon] and
saves; KeyError when the slug has no user half. -/
def set_boot (st : AddonsData) (addon : String) (boot : String) :
    AddonsData × Bool :=
  match smapLookup st.user_data addon with
  | none => (st, false)
  | some u =>
      ({ st with
          user_data := smapInsert st.user_data addon
            { u with boot := some boot },
          saves := st.saves + 1 }, true)

/-- get_options: the double-splat merge of the system options as base
with the user options as override; none models the KeyError when the
slug is missing from either half. -/
def get_options (st : AddonsData) (addon : String) : Option (Smap JVal) :=
  match smapLookup st.system_data addon, smapLookup st.user_data addon with
  | some s, some u => some (smapMergeDicts s.options u.options)
  | _, _ => none

/-- get_boot: the user override when present, else the system value. -/
def get_boot (st : AddonsData) (addon : String) : Option String :=
  match smapLookup st.user_data addon with
  | some u =>
      match u.boot with
      | some b => some b
      | none => (smapLookup st.system_data addon).map AddonConfig.boot
  | none => (smapLookup st.system_data addon).map AddonConfig.boot

/-- get_name: the catalog entry when the slug is in _addons_cache,
else the system half. -/
def get_name (st : AddonsData) (addon : String) : Option String :=
  match smapLookup st.addons_cache addon with
  | some c => some c.name
  | none => (smapLookup st.system_data addon).map AddonConfig.name

/-- get_description: the catalog entry when present, else the system
half. -/
def get_description (st : AddonsData) (addon : String) : Option String :=
  match smapLookup st.addons_cache addon with
  | some c => some c.descripton
  | none => (smapLookup st.system_data addon).map AddonConfig.descripton

/-- get_repository: the catalog entry when present, else the system
half. -/
def get_repository (st : AddonsData) (addon : String) : Option String :=
  match smapLookup st.addons_cache addon with
  | some c => some c.repository
  | none => (smapLookup st.system_data addon).map AddonConfig.repository

/-- version_installed: _user_data.get(addon, empty).get(ATTR_VERSION),
i.e. the version stored in the user half, none when absent. -/
def version_installed (st : AddonsData) (addon : String) : Option String :=
  (smapLookup st.user_data addon).map UserRecord.version

/-- get_last_version: the catalog entry when present, else
version_installed, i.e. the user half version. -/
def get_last_version (st : AddonsData) (addon : String) : Option String :=
  match smapLookup st.addons_cache addon with
  | some c => some c.version
  | none => version_installed st addon

/-- get_url: the catalog entry when present, else the system half; the
inner option reflects that ATTR_URL is an optional key. -/
def get_url (st : AddonsData) (addon : String) : Option (Option String) :=
  match smapLookup st.addons_cache addon with
  | some c => some c.url
  | none => (smapLookup st.system_data addon).map AddonConfig.url

/-- get_arch: the catalog entry when present, else the system half. -/
def get_arch (st : AddonsData) (addon : String) : Option (List String) :=
  match smapLookup st.addons_cache addon with
  | some c => some c.arch
  | none => (smapLookup st.system_data addon).map AddonConfig.arch

/-- The loop body condition of merge_update_config for one installed
entry: the slug is in _addons_cache, the system dict carries the same
ATTR_VERSION as the catalog dict, and the two dicts differ. -/
def wantMerge (cache : Smap AddonConfig) (addon : String)
    (d : AddonConfig) : Bool :=
  match smapLookup cache addon with
  | none => false
  | some c => d.version == c.version && ! AddonConfig.pyEq d c

/-- The value _system_data[addon] holds after the loop body of
merge_update_config ran for that slug. -/
def mergedValue (cache : Smap AddonConfig) (addon : String)
    (d : AddonConfig) : AddonConfig :=
  match smapLookup cache addon with
  | none => d
  | some c => if d.version == c.version && ! AddonConfig.pyEq d c then c else d

/-- merge_update_config: walk the installed slugs; where the catalog
holds an entry of the same version that differs, overwrite the system
dict with a copy of the catalog entry and set have_change; save once
at the end when anything changed.  The Python loop assigns
_system_data[addon] in place for each visited slug and every slug is
visited once, so it is an entrywise map over the system dict; the
final have_change flag is whether any entry met the condition. -/
def merge_update_config (st : AddonsData) : AddonsData :=
  if st.system_data.any (fun kv => wantMerge st.addons_cache kv.1 kv.2) then
    { st with
      system_data :=
        st.system_data.map
          (fun kv => (kv.1, mergedValue st.addons_cache kv.1 kv.2)),
      saves := st.saves + 1 }
  else st

/-- The dict get_image and need_build resolve: the system half when
the slug is installed, with the catalog entry as the default. -/
def resolved_data (st : AddonsData) (addon : String) : Option AddonConfig :=
  match smapLookup st.system_data addon with
  | some d => some d
  | none => smapLookup st.addons_cache addon

/-- Replace every occurrence of the six characters of the arch
placeholder in a character list by the arch value. -/
def replaceArch (arch : String) : List Char → List Char
  | '\x7b' :: 'a' :: 'r' :: 'c' :: 'h' :: '\x7d' :: rest =>
      arch.data ++ replaceArch arch rest
  | x :: rest => x :: replaceArch arch rest
  | [] => []

/-- Python str.format with a single arch keyword, for templates whose
only placeholder is arch: substitute the detected architecture. -/
def formatArch (template arch : String) : String :=
  String.mk (replaceArch arch template.data)

/-- get_image: when the resolved dict declares ATTR_IMAGE, substitute
the detected arch into the template; else synthesize
repository/arch-addon-slug.  none models the failure when the slug is
in neither half. -/
def get_image (st : AddonsData) (addon : String) : Option String :=
  (resolved_data st addon).map (fun d =>
    match d.image with
    | some tmpl => formatArch tmpl st.arch
    | none => d.repository ++ "/" ++ st.arch ++ "-addon-" ++ d.slug)

/-- need_build: true exactly when the resolved dict declares no
ATTR_IMAGE. -/
def need_build (st : AddonsData) (addon : String) : Option Bool :=
  (resolved_data st addon).map (fun d => d.image.isNone)

/-- Split a character list at colons, accumulating the current
segment in reverse. -/
def splitColon : List Char → List Char → List (List Char)
  | [], acc => [acc.reverse]
  | x :: xs, acc =>
      if x = ':' then acc.reverse :: splitColon xs []
      else splitColon xs (x :: acc)

/-- Modelled from the spec: the MAP_VOLUME regular expression lives in
validate.py, which is not part of the sources; per the spec each
volume directive follows the grammar path:mode with the colon and mode
optional, so a match yields the path as group 1 and the optional mode
as group 2. -/
def matchVolume (v : String) : Option (String × Option String) :=
  match splitColon v.data [] with
  | [p] => some (String.mk p, none)
  | [p, m] => some (String.mk p, some (String.mk m))
  | _ => none

/-- The loop of map_volumes: for each directive, store group 2 of the
match, defaulting to ro, under group 1; a directive the regular
expression rejects makes the group access raise, modelled by none. -/
def accVolumes (vols : Smap String) : List String → Option (Smap String)
  | [] => some vols
  | v :: rest =>
      match matchVolume v with
      | none => none
      | some pm => accVolumes (smapInsert vols pm.1 (pm.2.getD "ro")) rest

/-- map_volumes: parse the ATTR_MAP list of the system half into a
dict from volume path to access mode. -/
def map_volumes (st : AddonsData) (addon : String) : Option (Smap String) :=
  match smapLookup st.system_data addon with
  | none => none
  | some d => accVolumes [] d.map

/-- One addon config.json found by the glob of _read_addons_folder:
the validated config together with the parent directory recorded as
ATTR_LOCATON. -/
structure AddonFile where
  config : AddonConfig
  parent : String
  deriving Repr, DecidableEq

/-- A read or validation failure while scanning, OSError or
vol.Invalid; both paths log a warning and skip. -/
inductive ScanError where
  | oserror : ScanError
  | invalid : ScanError
  deriving Repr, DecidableEq

/-- _read_addons_folder: each config.json either fails to read or
validate, logging a warning, or is stored in _addons_cache under the
qualified slug repository_slug with ATTR_REPOSITORY and ATTR_LOCATON
stamped in.  The list argument models the outcomes of the filesystem
glob plus read_json_file plus SCHEMA_ADDON_CONFIG, which live outside
this class. -/
def read_addons_folder (st : AddonsData)
    (files : List (Except ScanError AddonFile)) (repository : String) :
    AddonsData :=
  files.foldl
    (fun acc f =>
      match f with
      | Except.error _ => { acc with warnings := acc.warnings + 1 }
      | Except.ok af =>
          { acc with
            addons_cache :=
              smapInsert acc.addons_cache
                (repository ++ "_" ++ af.config.slug)
                { af.config with
                    repository := repository, locaton := af.parent } })
    st

instance {ε α : Type} [DecidableEq ε] [DecidableEq α] :
    DecidableEq (Except ε α)
  | Except.error e, Except.error f =>
      if h : e = f then isTrue (by rw [h])
      else isFalse (by intro hc; cases hc; exact h rfl)
  | Except.error _, Except.ok _ => isFalse (by intro hc; cases hc)
  | Except.ok _, Except.error _ => isFalse (by intro hc; cases hc)
  | Except.ok a, Except.ok b =>
      if h : a = b then isTrue (by rw [h])
      else isFalse (by intro hc; cases hc; exact h rfl)

/-- One directory under path_addons_git: the hash extracted from the
path, the outcome of reading and validating its repository.json, and
the outcomes for the config.json files below it. -/
structure RepoDir where
  hash : String
  repoConfig : Except ScanError RepoConfig
  files : List (Except ScanError AddonFile)
  deriving Repr, DecidableEq

/-- _read_git_repository: when repository.json cannot be read or does
not validate, log a warning and return without touching any state;
otherwise record the repository info under its hash and scan the
folder for addons. -/
def read_git_repository (st : AddonsData) (dir : RepoDir) : AddonsData :=
  match dir.repoConfig with
  | Except.error _ => { st with warnings := st.warnings + 1 }
  | Except.ok info =>
      let st1 := { st with
        repositories_data :=
          smapInsert st.repositories_data dir.hash
            { slug := dir.hash, name := info.name, url := info.url,
              maintainer := info.maintainer } }
      read_addons_folder st1 dir.files dir.hash

/-- The loop of read_data_from_repositories over the directories found
under path_addons_git. -/
def read_git_repositories (st : AddonsData) (dirs : List RepoDir) :
    AddonsData :=
  dirs.foldl read_git_repository st

/-- Record one logged warning. -/
def bumpWarn (st : AddonsData) : AddonsData :=
  { st with warnings := st.warnings + 1 }

/-- A concrete addon definition, local build, used by the witnesses. -/
def cfgFoo : AddonConfig :=
  { slug := "foo", name := "Foo", descripton := "an addon",
    version := "1.0", startup := "before", boot := "auto",
    arch := ["amd64"], url := none, image := none, ports := none,
    map := [], devices := none, environment := none, schema := [],
    options := [("a", JVal.num 1), ("b", JVal.num 2)],
    repository := "local", locaton := "/addons/foo" }

/-- The same addon at a newer catalog version. -/
def cfgFooV2 : AddonConfig := { cfgFoo with version := "2.0" }

/-- The same addon, same version, with a corrected description. -/
def cfgFooFixed : AddonConfig := { cfgFoo with descripton := "a fixed addon" }

/-- An addon declaring a remote image template. -/
def cfgVendor : AddonConfig :=
  { cfgFoo with
    image := some "vendor/\x7barch\x7d-foo"
    repository := "vendor" }

/-- A local-build addon named bar. -/
def cfgBar : AddonConfig := { cfgFoo with slug := "bar" }

/-- An addon with volume directives of both shapes. -/
def cfgVol : AddonConfig := { cfgFoo with map := ["/data", "/ssl:rw"] }

/-- A user half overriding option b and keeping version 1.0. -/
def userFoo : UserRecord :=
  { options := [("b", JVal.num 3)], version := "1.0", boot := none }

/-- A user half whose version drifted away from both the system half
and the catalog. -/
def userDrift : UserRecord :=
  { options := [], version := "9.9", boot := none }

/-- The empty store. -/
def st0 : AddonsData :=
  { system_data := [], user_data := [], addons_cache := [],
    repositories_data := [], arch := "amd64", saves := 0, warnings := 0 }

/-- Store with foo installed at 1.0 and catalog offering 2.0. -/
def stUpd : AddonsData :=
  { st0 with
    system_data := [("local_foo", cfgFoo)]
    user_data := [("local_foo", userFoo)]
    addons_cache := [("local_foo", cfgFooV2)] }

/-- Store with foo installed carrying user option overrides. -/
def stOpts : AddonsData :=
  { st0 with
    system_data := [("local_foo", cfgFoo)]
    user_data := [("local_foo", userFoo)] }

/-- Store with foo available in the catalog but not installed. -/
def stAvail : AddonsData :=
  { st0 with addons_cache := [("local_foo", cfgFoo)] }

/-- Store where the system half matches the catalog version but the
definitions differ, while the user half version matches neither. -/
def stDrift : AddonsData :=
  { st0 with
    system_data := [("local_foo", cfgFoo)]
    user_data := [("local_foo", userDrift)]
    addons_cache := [("local_foo", cfgFooFixed)] }

/-- Store with foo installed and detached, the user half version
differing from the system half version. -/
def stDetached : AddonsData :=
  { st0 with
    system_data := [("local_foo", cfgFoo)]
    user_data := [("local_foo", userDrift)] }

/-- Store offering a templated image and a local-build image. -/
def stImages : AddonsData :=
  { st0 with
    addons_cache := [("vendor_foo", cfgVendor), ("local_bar", cfgBar)] }

/-- Store with foo installed as a local build while the catalog
meanwhile declares a remote image for it. -/
def stImgDrift : AddonsData :=
  { st0 with
    system_data := [("local_foo", cfgFoo)]
    user_data := [("local_foo", userFoo)]
    addons_cache := [("local_foo", cfgVendor)] }

/-- Store with the volume addon installed. -/
def stVol : AddonsData :=
  { st0 with
    system_data := [("local_foo", cfgVol)]
    user_data := [("local_foo", userFoo)] }

/-- A git repository directory whose repository.json reads fine. -/
def dirGood : RepoDir :=
  { hash := "a1b2c3d4",
    repoConfig := Except.ok
      { name := "Good repo", url := some "https://example.test/good",
        maintainer := some "Jane Dev" },
    files := [Except.ok { config := cfgFoo, parent := "/data/addons/git/a1b2c3d4/foo" }] }

/-- A git repository directory whose repository.json cannot be read. -/
def dirBad : RepoDir :=
  { hash := "deadbeef",
    repoConfig := Except.error ScanError.oserror,
    files := [Except.ok { config := cfgBar, parent := "/data/addons/git/deadbeef/bar" }] }

/-- Looking up the key just assigned yields the assigned value. -/
theorem smapLookup_insert_self {α : Type} (m : Smap α) (k : String) (v : α) :
    smapLookup (smapInsert m k v) k = some v := by
  induction m with
  | nil => simp [smapInsert, smapLookup]
  | cons kv rest ih =>
      obtain ⟨k0, v0⟩ := kv
      by_cases h : k0 = k
      · simp [smapInsert, smapLookup, h]
      · simp [smapInsert, smapLookup, h, ih]

/-- Assigning one key leaves the lookup at any other key unchanged. -/
theorem smapLookup_insert_ne {α : Type} (m : Smap α) (k k' : String) (v : α)
    (h : k' ≠ k) :
    smapLookup (smapInsert m k v) k' = smapLookup m k' := by
  induction m with
  | nil => simp [smapInsert, smapLookup, Ne.symm h]
  | cons kv rest ih =>
      obtain ⟨k0, v0⟩ := kv
      by_cases hk : k0 = k
      · subst hk
        simp [smapInsert, smapLookup, Ne.symm h]
      · simp [smapInsert, smapLookup, hk, ih]

/-- A key that is absent looks up to none. -/
theorem smapLookup_eq_none_of_not_mem {α : Type} (m : Smap α) (k : String)
    (h : k ∉ m.map Prod.fst) : smapLookup m k = none := by
  induction m with
  | nil => simp [smapLookup]
  | cons kv rest ih =>
      obtain ⟨k0, v0⟩ := kv
      simp only [List.map_cons, List.mem_cons] at h
      push_neg at h
      simp [smapLookup, Ne.symm h.1, ih h.2]

/-- A successful lookup comes from an entry of the list. -/
theorem smapLookup_mem {α : Type} (m : Smap α) (k : String) (v : α)
    (h : smapLookup m k = some v) : (k, v) ∈ m := by
  induction m with
  | nil => simp [smapLookup] at h
  | cons kv rest ih =>
      obtain ⟨k0, v0⟩ := kv
      by_cases hk : k0 = k
      · subst hk
        simp [smapLookup] at h
        rw [← h]
        exact List.mem_cons_self _ _
      · simp only [smapLookup, if_neg hk] at h
        exact List.mem_cons_of_mem _ (ih h)

/-- Removing an absent key is a no-op. -/
theorem smapErase_eq_of_none {α : Type} (m : Smap α) (k : String)
    (h : smapLookup m k = none) : smapErase m k = m := by
  induction m with
  | nil => simp [smapErase]
  | cons kv rest ih =>
      obtain ⟨k0, v0⟩ := kv
      by_cases hk : k0 = k
      · simp [smapLookup, hk] at h
      · simp only [smapLookup, if_neg hk] at h
        simp [smapErase, hk, ih h]

/-- Removing a key after assigning it removes exactly what removing it
before would have. -/
theorem smapErase_insert {α : Type} (m : Smap α) (k : String) (v : α) :
    smapErase (smapInsert m k v) k = smapErase m k := by
  induction m with
  | nil => simp [smapInsert, smapErase]
  | cons kv rest ih =>
      obtain ⟨k0, v0⟩ := kv
      by_cases hk : k0 = k
      · simp [smapInsert, smapErase, hk]
      · simp [smapInsert, smapErase, hk, ih]

/-- Lookup in a double-splat merge: the override value when the key is
in the override dict, else the base value. -/
theorem smapLookup_mergeDicts {α : Type} (base override : Smap α)
    (k : String) (hnd : (override.map Prod.fst).Nodup) :
    smapLookup (smapMergeDicts base override) k =
      dictFallback (smapLookup override k) (smapLookup base k) := by
  induction override generalizing base with
  | nil => simp [smapMergeDicts, smapLookup, dictFallback]
  | cons kv rest ih =>
      obtain ⟨k0, v0⟩ := kv
      simp only [List.map_cons, List.nodup_cons] at hnd
      have hstep : smapMergeDicts base ((k0, v0) :: rest) =
          smapMergeDicts (smapInsert base k0 v0) rest := by
        simp [smapMergeDicts]
      rw [hstep, ih _ hnd.2]
      by_cases hk : k0 = k
      · subst hk
        have hrest : smapLookup rest k0 = none :=
          smapLookup_eq_none_of_not_mem _ _ hnd.1
        simp [smapLookup, hrest, smapLookup_insert_self, dictFallback]
      · simp [smapLookup, hk, dictFallback,
          smapLookup_insert_ne _ _ _ _ (fun hc => hk hc.symm)]

/-- Lookup after a key-preserving entrywise map applies the value
transformation at the key. -/
theorem smapLookup_mapVal {α β : Type} (g : String → α → β)
    (m : Smap α) (k : String) :
    smapLookup (m.map (fun kv => (kv.1, g kv.1 kv.2))) k =
      (smapLookup m k).map (g k) := by
  induction m with
  | nil => simp [smapLookup]
  | cons kv rest ih =>
      obtain ⟨k0, v0⟩ := kv
      by_cases hk : k0 = k
      · simp [smapLookup, hk]
      · simp [smapLookup, hk, ih]

/-- C3: when the slug is absent from the catalog, install and update
raise before touching the system or user half and before persisting:
the whole state, its two maps and its persist count included, is
returned unchanged with the error flag. -/
theorem install_update_missing_slug_aborts (st : AddonsData)
    (addon version : String)
    (h : smapLookup st.addons_cache addon = none) :
    set_addon_install st addon version = (st, false) ∧
    set_addon_update st addon version = (st, false) := by
  constructor <;> simp [set_addon_install, set_addon_update, h]

theorem install_update_missing_slug_aborts_witness :
    set_addon_install stDetached "zzz" "1.0" = (stDetached, false) ∧
    set_addon_update stDetached "zzz" "1.0" = (stDetached, false) :=
  install_update_missing_slug_aborts stDetached "zzz" "1.0" (by decide)

/-- C4: updating an installed addon present in the catalog overwrites
the system half with the current catalog entry, sets the user half
version to the requested one, leaves the user options and boot
exactly unchanged, and persists. -/
theorem update_overwrites_system_keeps_user (st : AddonsData)
    (addon version : String) (c : AddonConfig) (u : UserRecord)
    (hc : smapLookup st.addons_cache addon = some c)
    (hu : smapLookup st.user_data addon = some u) :
    (set_addon_update st addon version).2 = true ∧
    smapLookup (set_addon_update st addon version).1.system_data addon
      = some c ∧
    smapLookup (set_addon_update st addon version).1.user_data addon
      = some { options := u.options, version := version, boot := u.boot } ∧
    (set_addon_update st addon version).1.saves = st.saves + 1 := by
  refine ⟨?_, ?_, ?_, ?_⟩ <;>
    simp [set_addon_update, hc, hu, smapLookup_insert_self]

theorem update_overwrites_system_keeps_user_witness :
    (set_addon_update stUpd "local_foo" "2.0").2 = true ∧
    smapLookup (set_addon_update stUpd "local_foo" "2.0").1.system_data
      "local_foo" = some cfgFooV2 ∧
    smapLookup (set_addon_update stUpd "local_foo" "2.0").1.user_data
      "local_foo" = some { options := userFoo.options, version := "2.0",
                           boot := userFoo.boot } ∧
    (set_addon_update stUpd "local_foo" "2.0").1.saves = stUpd.saves + 1 :=
  update_overwrites_system_keeps_user stUpd "local_foo" "2.0" cfgFooV2
    userFoo (by decide) (by decide)

/-- C5: get_options is the key-by-key shallow merge of the system
options as base with the user options as override: a key present in
the user options takes the user value, every other key keeps the
system value. -/
theorem get_options_shallow_merge (st : AddonsData) (addon : String)
    (s : AddonConfig) (u : UserRecord)
    (hs : smapLookup st.system_data addon = some s)
    (hu : smapLookup st.user_data addon = some u)
    (hnd : (u.options.map Prod.fst).Nodup) :
    get_options st addon = some (smapMergeDicts s.options u.options) ∧
    ∀ k, smapLookup (smapMergeDicts s.options u.options) k =
      dictFallback (smapLookup u.options k) (smapLookup s.options k) := by
  refine ⟨?_, fun k => smapLookup_mergeDicts _ _ _ hnd⟩
  simp [get_options, hs, hu]

theorem get_options_shallow_merge_witness :
    get_options stOpts "local_foo"
      = some (smapMergeDicts cfgFoo.options userFoo.options) ∧
    (∀ k, smapLookup (smapMergeDicts cfgFoo.options userFoo.options) k =
      dictFallback (smapLookup userFoo.options k)
        (smapLookup cfgFoo.options k)) ∧
    get_options stOpts "local_foo"
      = some [("a", JVal.num 1), ("b", JVal.num 3)] := by
  have h := get_options_shallow_merge stOpts "local_foo" cfgFoo userFoo
    (by decide) (by decide) (by decide)
  exact ⟨h.1, h.2, by decide⟩

/-- C6: installing a catalog addon that is not currently installed and
then uninstalling it returns both halves to exactly their previous
contents; in particular the slug is afterwards absent from both maps
and every other slug is untouched. -/
theorem install_uninstall_roundtrip (st : AddonsData)
    (addon version : String) (c : AddonConfig)
    (hc : smapLookup st.addons_cache addon = some c)
    (hs : smapLookup st.system_data addon = none)
    (hu : smapLookup st.user_data addon = none) :
    (set_addon_install st addon version).2 = true ∧
    (set_addon_uninstall (set_addon_install st addon version).1
        addon).system_data = st.system_data ∧
    (set_addon_uninstall (set_addon_install st addon version).1
        addon).user_data = st.user_data ∧
    smapLookup (set_addon_uninstall (set_addon_install st addon version).1
        addon).system_data addon = none ∧
    smapLookup (set_addon_uninstall (set_addon_install st addon version).1
        addon).user_data addon = none := by
  have hsys : smapErase (smapInsert st.system_data addon c) addon
      = st.system_data := by
    rw [smapErase_insert, smapErase_eq_of_none _ _ hs]
  have husr : smapErase
      (smapInsert st.user_data addon
        { options := [], version := version, boot := none }) addon
      = st.user_data := by
    rw [smapErase_insert, smapErase_eq_of_none _ _ hu]
  refine ⟨?_, ?_, ?_, ?_, ?_⟩
  · simp [set_addon_install, hc]
  · simp [set_addon_install, hc, set_addon_uninstall, hsys]
  · simp [set_addon_install, hc, set_addon_uninstall, husr]
  · simp [set_addon_install, hc, set_addon_uninstall, hsys, hs]
  · simp [set_addon_install, hc, set_addon_uninstall, husr, hu]

theorem install_uninstall_roundtrip_witness :
    (set_addon_install stAvail "local_foo" "1.0").2 = true ∧
    (set_addon_uninstall (set_addon_install stAvail "local_foo" "1.0").1
        "local_foo").system_data = stAvail.system_data ∧
    (set_addon_uninstall (set_addon_install stAvail "local_foo" "1.0").1
        "local_foo").user_data = stAvail.user_data ∧
    smapLookup (set_addon_uninstall
        (set_addon_install stAvail "local_foo" "1.0").1
        "local_foo").system_data "local_foo" = none ∧
    smapLookup (set_addon_uninstall
        (set_addon_install stAvail "local_foo" "1.0").1
        "local_foo").user_data "local_foo" = none :=
  install_uninstall_roundtrip stAvail "local_foo" "1.0" cfgFoo
    (by decide) (by decide) (by decide)

/-- C1 counterexample: in stDrift the only installed slug carries a
user half version 9.9 that differs from the catalog version 1.0, so
the claim predicts no overwrite and zero persists; yet
merge_update_config persists and overwrites the system half, because
the code gates on the system half version, not the user half one. -/
theorem reconcile_user_gate_counterexample :
    stDrift.system_data.map Prod.fst = ["local_foo"] ∧
    (smapLookup stDrift.user_data "local_foo").map UserRecord.version
      = some "9.9" ∧
    (smapLookup stDrift.addons_cache "local_foo").map AddonConfig.version
      = some "1.0" ∧
    (merge_update_config stDrift).saves = stDrift.saves + 1 ∧
    smapLookup (merge_update_config stDrift).system_data "local_foo"
      = some cfgFooFixed ∧
    cfgFooFixed ≠ cfgFoo ∧
    smapLookup stDrift.system_data "local_foo" = some cfgFoo := by
  decide

/-- C1 amended: merge_update_config overwrites the system half of an
installed slug present in the catalog exactly when the system half
version equals the catalog entry version and the two dicts differ; it
persists once when anything changed, else not at all; in particular
when every installed catalog slug has a system half version differing
from the catalog version, the state is returned untouched. -/
theorem reconcile_system_version_gate (st : AddonsData) :
    (∀ addon d c, smapLookup st.system_data addon = some d →
        smapLookup st.addons_cache addon = some c →
        smapLookup (merge_update_config st).system_data addon =
          some (if d.version == c.version && ! AddonConfig.pyEq d c
                then c else d)) ∧
    ((merge_update_config st).saves =
      if st.system_data.any (fun kv => wantMerge st.addons_cache kv.1 kv.2)
      then st.saves + 1 else st.saves) ∧
    ((∀ kv ∈ st.system_data, ∀ c,
        smapLookup st.addons_cache kv.1 = some c →
        kv.2.version ≠ c.version) →
      merge_update_config st = st) := by
  refine ⟨?_, ?_, ?_⟩
  · intro addon d c hd hc
    by_cases hany : st.system_data.any
        (fun kv => wantMerge st.addons_cache kv.1 kv.2)
    · rw [merge_update_config, if_pos hany]
      show smapLookup (st.system_data.map
        (fun kv => (kv.1, mergedValue st.addons_cache kv.1 kv.2))) addon = _
      rw [smapLookup_mapVal, hd]
      simp [mergedValue, hc]
    · rw [merge_update_config, if_neg hany, hd]
      have hmem := smapLookup_mem _ _ _ hd
      have hw : ¬ wantMerge st.addons_cache addon d = true := fun hwt =>
        hany (List.any_eq_true.mpr ⟨(addon, d), hmem, hwt⟩)
      have hcond : (d.version == c.version && ! AddonConfig.pyEq d c)
          = false := by
        have heq : wantMerge st.addons_cache addon d =
            (d.version == c.version && ! AddonConfig.pyEq d c) := by
          simp [wantMerge, hc]
        rw [← heq]
        exact Bool.eq_false_iff.mpr (fun h => hw h)
      simp [hcond]
  · by_cases hany : st.system_data.any
        (fun kv => wantMerge st.addons_cache kv.1 kv.2) <;>
      simp [merge_update_config, hany]
  · intro hall
    have hany : ¬ st.system_data.any
        (fun kv => wantMerge st.addons_cache kv.1 kv.2) = true := by
      intro hx
      obtain ⟨kv, hkv, hw⟩ := List.any_eq_true.mp hx
      cases hc : smapLookup st.addons_cache kv.1 with
      | none => simp [wantMerge, hc] at hw
      | some c =>
          simp only [wantMerge, hc, Bool.and_eq_true, beq_iff_eq] at hw
          exact hall kv hkv c hc hw.1
    simp [merge_update_config, hany]

theorem reconcile_system_version_gate_witness :
    smapLookup (merge_update_config stDrift).system_data "local_foo"
      = some (if cfgFoo.version == cfgFooFixed.version &&
                 ! AddonConfig.pyEq cfgFoo cfgFooFixed
              then cfgFooFixed else cfgFoo) ∧
    merge_update_config stUpd = stUpd :=
  ⟨(reconcile_system_version_gate stDrift).1 "local_foo" cfgFoo cfgFooFixed
      (by decide) (by decide),
   (reconcile_system_version_gate stUpd).2.2 (by
      intro kv hkv c hc
      simp only [stUpd, st0] at hkv
      rw [List.mem_singleton] at hkv
      subst hkv
      simp only [stUpd, st0, smapLookup, if_pos] at hc
      cases hc
      decide)⟩

/-- C2 counterexample: in stDetached the slug is absent from the
catalog and the system half carries version 1.0, but get_last_version
returns the user half version 9.9, not the system half value, so the
fallback of the latest-version accessor is not the system half. -/
theorem accessors_fallback_counterexample :
    smapLookup stDetached.addons_cache "local_foo" = none ∧
    (smapLookup stDetached.system_data "local_foo").map AddonConfig.version
      = some "1.0" ∧
    get_last_version stDetached "local_foo" = some "9.9" ∧
    get_last_version stDetached "local_foo"
      ≠ (smapLookup stDetached.system_data "local_foo").map
          AddonConfig.version := by
  decide

/-- C2 amended: every descriptive accessor returns the catalog value
when the slug is in the catalog; otherwise name, description,
repository, url and architectures come from the system half, while the
latest version falls back to the user half version. -/
theorem accessors_catalog_first (st : AddonsData) (addon : String) :
    (∀ c, smapLookup st.addons_cache addon = some c →
        get_name st addon = some c.name ∧
        get_description st addon = some c.descripton ∧
        get_repository st addon = some c.repository ∧
        get_last_version st addon = some c.version ∧
        get_url st addon = some c.url ∧
        get_arch st addon = some c.arch) ∧
    (smapLookup st.addons_cache addon = none →
      (∀ s, smapLookup st.system_data addon = some s →
          get_name st addon = some s.name ∧
          get_description st addon = some s.descripton ∧
          get_repository st addon = some s.repository ∧
          get_url st addon = some s.url ∧
          get_arch st addon = some s.arch) ∧
      get_last_version st addon
        = (smapLookup st.user_data addon).map UserRecord.version) := by
  constructor
  · intro c hc
    refine ⟨?_, ?_, ?_, ?_, ?_, ?_⟩ <;>
      simp [get_name, get_description, get_repository, get_last_version,
        get_url, get_arch, hc]
  · intro hnone
    constructor
    · intro s hs
      refine ⟨?_, ?_, ?_, ?_, ?_⟩ <;>
        simp [get_name, get_description, get_repository, get_url,
          get_arch, hnone, hs]
    · simp [get_last_version, version_installed, hnone]

theorem accessors_catalog_first_witness :
    (get_name stImages "vendor_foo" = some cfgVendor.name ∧
     get_description stImages "vendor_foo" = some cfgVendor.descripton ∧
     get_repository stImages "vendor_foo" = some cfgVendor.repository ∧
     get_last_version stImages "vendor_foo" = some cfgVendor.version ∧
     get_url stImages "vendor_foo" = some cfgVendor.url ∧
     get_arch stImages "vendor_foo" = some cfgVendor.arch) ∧
    get_last_version stDetached "local_foo"
      = (smapLookup stDetached.user_data "local_foo").map
          UserRecord.version :=
  ⟨(accessors_catalog_first stImages "vendor_foo").1 cfgVendor (by decide),
   ((accessors_catalog_first stDetached "local_foo").2 (by decide)).2⟩

/-- C8: when the resolved definition declares an image template,
get_image substitutes the detected architecture into it; otherwise it
synthesizes repository/arch-addon-slug; need_build is true exactly
when no template is declared. -/
theorem image_resolution (st : AddonsData) (addon : String)
    (d : AddonConfig) (h : resolved_data st addon = some d) :
    (∀ tmpl, d.image = some tmpl →
        get_image st addon = some (formatArch tmpl st.arch)) ∧
    (d.image = none →
        get_image st addon
          = some (d.repository ++ "/" ++ st.arch ++ "-addon-" ++ d.slug)) ∧
    need_build st addon = some d.image.isNone := by
  refine ⟨fun tmpl ht => ?_, fun ht => ?_, ?_⟩
  · simp [get_image, h, ht]
  · simp [get_image, h, ht]
  · simp [need_build, h]

theorem image_resolution_witness :
    get_image stImages "vendor_foo" = some "vendor/amd64-foo" ∧
    get_image stImages "local_bar" = some "local/amd64-addon-bar" ∧
    need_build stImages "local_bar" = some true ∧
    need_build stImages "vendor_foo" = some false := by
  have h1 := (image_resolution stImages "vendor_foo" cfgVendor
    (by decide)).1 "vendor/\x7barch\x7d-foo" (by decide)
  have h2 := (image_resolution stImages "local_bar" cfgBar
    (by decide)).2.1 (by decide)
  have h3 := (image_resolution stImages "local_bar" cfgBar (by decide)).2.2
  have h4 := (image_resolution stImages "vendor_foo" cfgVendor
    (by decide)).2.2
  refine ⟨?_, ?_, ?_, ?_⟩
  · rw [h1]; decide
  · rw [h2]; decide
  · rw [h3]; decide
  · rw [h4]; decide

/-- C10: for an installed slug the image name and build flag are
computed from the system half definition, and replacing the catalog
wholesale changes neither, so the catalog entry is not consulted for
an installed addon. -/
theorem installed_image_ignores_catalog (st : AddonsData) (addon : String)
    (d c : AddonConfig)
    (hs : smapLookup st.system_data addon = some d)
    (_hc : smapLookup st.addons_cache addon = some c) :
    (∀ tmpl, d.image = some tmpl →
        get_image st addon = some (formatArch tmpl st.arch)) ∧
    (d.image = none →
        get_image st addon
          = some (d.repository ++ "/" ++ st.arch ++ "-addon-" ++ d.slug)) ∧
    need_build st addon = some d.image.isNone ∧
    ∀ cache2,
      get_image { st with addons_cache := cache2 } addon
        = get_image st addon ∧
      need_build { st with addons_cache := cache2 } addon
        = need_build st addon := by
  have hr : resolved_data st addon = some d := by
    simp [resolved_data, hs]
  refine ⟨fun tmpl ht => ?_, fun ht => ?_, ?_, fun cache2 => ⟨?_, ?_⟩⟩
  · simp [get_image, hr, ht]
  · simp [get_image, hr, ht]
  · simp [need_build, hr]
  · simp [get_image, resolved_data, hs]
  · simp [need_build, resolved_data, hs]

theorem installed_image_ignores_catalog_witness :
    get_image stImgDrift "local_foo" = some "local/amd64-addon-foo" ∧
    need_build stImgDrift "local_foo" = some true ∧
    get_image { stImgDrift with addons_cache := [] } "local_foo"
      = get_image stImgDrift "local_foo" := by
  have h := installed_image_ignores_catalog stImgDrift "local_foo"
    cfgFoo cfgVendor (by decide) (by decide)
  refine ⟨?_, ?_, (h.2.2.2 []).1⟩
  · rw [h.2.1 (by decide)]; decide
  · rw [h.2.2.1]; decide

/-- The volume fold succeeds on well-formed directives and maps each
directive path to its mode, defaulting to ro, leaving other keys
untouched. -/
theorem accVolumes_spec (l : List String) (vols : Smap String)
    (hwf : ∀ v ∈ l, (matchVolume v).isSome)
    (hnd : (l.filterMap (fun v => (matchVolume v).map Prod.fst)).Nodup) :
    ∃ out, accVolumes vols l = some out ∧
      (∀ v p m, v ∈ l → matchVolume v = some (p, m) →
        smapLookup out p = some (m.getD "ro")) ∧
      (∀ q, q ∉ l.filterMap (fun v => (matchVolume v).map Prod.fst) →
        smapLookup out q = smapLookup vols q) := by
  induction l generalizing vols with
  | nil => exact ⟨vols, rfl, by simp, fun q _ => rfl⟩
  | cons v0 rest ih =>
      obtain ⟨pm, hpm⟩ := Option.isSome_iff_exists.mp
        (hwf v0 (List.mem_cons_self _ _))
      obtain ⟨p0, m0⟩ := pm
      have hfm : (v0 :: rest).filterMap
          (fun v => (matchVolume v).map Prod.fst)
          = p0 :: rest.filterMap (fun v => (matchVolume v).map Prod.fst) := by
        simp [List.filterMap_cons, hpm]
      rw [hfm] at hnd
      have hnd' := List.nodup_cons.mp hnd
      obtain ⟨out, hout, hlook, hframe⟩ :=
        ih (smapInsert vols p0 (m0.getD "ro"))
          (fun v hv => hwf v (List.mem_cons_of_mem _ hv)) hnd'.2
      refine ⟨out, ?_, ?_, ?_⟩
      · simp [accVolumes, hpm, hout]
      · intro v p m hv hm
        rcases List.mem_cons.mp hv with rfl | hv'
        · rw [hpm] at hm
          simp only [Option.some.injEq, Prod.mk.injEq] at hm
          obtain ⟨hp, hm0⟩ := hm
          subst hp
          subst hm0
          rw [hframe p0 hnd'.1, smapLookup_insert_self]
        · exact hlook v p m hv' hm
      · intro q hq
        rw [hfm] at hq
        have hq1 : q ≠ p0 := fun hx => hq (List.mem_cons.mpr (Or.inl hx))
        have hq2 : q ∉ rest.filterMap
            (fun v => (matchVolume v).map Prod.fst) :=
          fun hx => hq (List.mem_cons.mpr (Or.inr hx))
        rw [hframe q hq2, smapLookup_insert_ne _ _ _ _ hq1]

/-- C9: for an installed addon whose volume directives are all
well-formed and name distinct paths, the parse succeeds and maps each
directive to its path with its declared mode, defaulting the mode to
ro when the colon suffix is omitted. -/
theorem volume_parse_defaults_ro (st : AddonsData) (addon : String)
    (d : AddonConfig)
    (hs : smapLookup st.system_data addon = some d)
    (hwf : ∀ v ∈ d.map, (matchVolume v).isSome)
    (hnd : (d.map.filterMap
      (fun v => (matchVolume v).map Prod.fst)).Nodup) :
    ∃ vols, map_volumes st addon = some vols ∧
      ∀ v p m, v ∈ d.map → matchVolume v = some (p, m) →
        smapLookup vols p = some (m.getD "ro") := by
  obtain ⟨out, hout, hlook, _⟩ := accVolumes_spec d.map [] hwf hnd
  exact ⟨out, by simp [map_volumes, hs, hout], hlook⟩

theorem volume_parse_defaults_ro_witness :
    (∃ vols, map_volumes stVol "local_foo" = some vols ∧
      ∀ v p m, v ∈ cfgVol.map → matchVolume v = some (p, m) →
        smapLookup vols p = some (m.getD "ro")) ∧
    map_volumes stVol "local_foo"
      = some [("/data", "ro"), ("/ssl", "rw")] :=
  ⟨volume_parse_defaults_ro stVol "local_foo" cfgVol (by decide)
      (by decide) (by decide),
   by decide⟩

/-- A pending warning commutes with scanning an addons folder. -/
theorem read_addons_folder_bumpWarn
    (files : List (Except ScanError AddonFile)) (repository : String)
    (st : AddonsData) :
    read_addons_folder (bumpWarn st) files repository
      = bumpWarn (read_addons_folder st files repository) := by
  induction files generalizing st with
  | nil => rfl
  | cons f rest ih =>
      cases f with
      | error e => exact ih (bumpWarn st)
      | ok af =>
          exact ih
            { st with
              addons_cache :=
                smapInsert st.addons_cache
                  (repository ++ "_" ++ af.config.slug)
                  { af.config with
                    repository := repository
                    locaton := af.parent } }

/-- A pending warning commutes with scanning one git repository. -/
theorem read_git_repository_bumpWarn (dir : RepoDir) (st : AddonsData) :
    read_git_repository (bumpWarn st) dir
      = bumpWarn (read_git_repository st dir) := by
  cases hdc : dir.repoConfig with
  | error e => simp [read_git_repository, hdc, bumpWarn]
  | ok info =>
      simp only [read_git_repository, hdc]
      exact read_addons_folder_bumpWarn dir.files dir.hash
        { st with
          repositories_data :=
            smapInsert st.repositories_data dir.hash
              { slug := dir.hash, name := info.name, url := info.url,
                maintainer := info.maintainer } }

/-- A pending warning commutes with scanning a list of git
repositories. -/
theorem read_git_repositories_bumpWarn (dirs : List RepoDir)
    (st : AddonsData) :
    read_git_repositories (bumpWarn st) dirs
      = bumpWarn (read_git_repositories st dirs) := by
  induction dirs generalizing st with
  | nil => rfl
  | cons d rest ih =>
      show read_git_repositories (read_git_repository (bumpWarn st) d) rest
        = _
      rw [read_git_repository_bumpWarn]
      exact ih _

/-- C7: a git repository directory whose repository.json is missing,
unreadable or invalid contributes exactly one warning and nothing
else: the scan over any directory list containing it equals the scan
with that directory dropped, plus one recorded warning; hence no addon
from that directory enters the catalog and every other repository is
processed unaffected. -/
theorem repo_config_failure_skips_repository (st : AddonsData)
    (pre post : List RepoDir) (bad : RepoDir) (e : ScanError)
    (h : bad.repoConfig = Except.error e) :
    read_git_repositories st (pre ++ bad :: post)
      = bumpWarn (read_git_repositories st (pre ++ post)) := by
  unfold read_git_repositories
  rw [List.foldl_append, List.foldl_append, List.foldl_cons]
  have hbad : read_git_repository (List.foldl read_git_repository st pre) bad
      = bumpWarn (List.foldl read_git_repository st pre) := by
    simp [read_git_repository, h, bumpWarn]
  rw [hbad]
  exact read_git_repositories_bumpWarn _ _

theorem repo_config_failure_skips_repository_witness :
    read_git_repositories st0 [dirGood, dirBad]
      = bumpWarn (read_git_repositories st0 [dirGood]) :=
  repo_config_failure_skips_repository st0 [dirGood] [] dirBad
    ScanError.oserror (by decide)

end Hassio
